import Mathlib

/-!
Verification development for the analytics service event-intake pipeline.

Shallow embedding of:
  * `src/src/processor.js` — `processEvent` (the Aggregation Engine);
  * the repository layer (`insertEvent`, `upsertDailyMetrics`,
    `upsertHourlyMetrics`, `upsertProductMetrics`) found in
    `src/unnamed/part_000`;
  * the Kafka ingress handler (`eachMessage` inside `startConsumer`).

Modelling conventions:
  * JavaScript numbers that hold money are modelled as rationals (`ℚ`);
    integer counters as `Nat` (the SQL columns are `INTEGER` and only ever
    receive non-negative increments).
  * Each SQL table is a function from its unique key to an optional row;
    `none` means "no row for that key".
  * The processor derives `today`, the hour bucket and `now` from the wall
    clock (`new Date()`); the embedding receives those derived values in a
    `Clock` record, since the `Date` library is external.
  * Fallible/optional JavaScript fields are `Option`; `x || 0` on a numeric
    field is `Option.getD 0` (a present `0` is falsy in JS and yields `0`
    either way, so the two agree on numbers).
-/

namespace Analytics

/-- Event-type constants from the shared `order-events-schemas` package
(string values as used throughout the repository's tests and interfaces). -/
def ORDER_CREATED : String := "order.created"

def ORDER_CONFIRMED : String := "order.confirmed"

def ORDER_CANCELLED : String := "order.cancelled"

def ORDER_SHIPPED : String := "order.shipped"

def PAYMENT_AUTHORIZED : String := "payment.authorized"

def PAYMENT_FAILED : String := "payment.failed"

/-- The six event types the processor's `switch` recognizes. -/
def recognizedTypes : List String :=
  [ORDER_CREATED, ORDER_CONFIRMED, ORDER_CANCELLED, ORDER_SHIPPED,
   PAYMENT_AUTHORIZED, PAYMENT_FAILED]

/-- One line item of an `order.confirmed` payload
(`{productId, quantity, price}`); `quantity`/`price` may be absent. -/
structure Item where
  productId : Int
  quantity : Option Int
  price : Option ℚ
deriving DecidableEq

/-- The `data` sub-object of an event payload. `items = some l` models a
present array field (`Array.isArray(data.items)` true). -/
structure EventData where
  totalAmount : Option ℚ
  items : Option (List Item)
deriving DecidableEq

/-- A validated event as delivered to `processEvent`. -/
structure Event where
  type : String
  orderId : Int
  userId : Option Int
  correlationId : Option String
  data : Option EventData
deriving DecidableEq

/-- A row of `events_log` (the Event Ledger). The `SERIAL` id and
`received_at` columns play no role in any claim and are elided. -/
structure EventRecord where
  eventType : String
  orderId : Int
  userId : Option Int
  correlationId : Option String
  data : Option EventData
deriving DecidableEq

/-- A row of `daily_metrics`. -/
structure DailyRow where
  ordersCreated : Nat
  ordersConfirmed : Nat
  ordersCancelled : Nat
  ordersShipped : Nat
  revenueConfirmed : ℚ
  revenueCancelled : ℚ
  paymentSuccessCount : Nat
  paymentFailureCount : Nat
deriving DecidableEq

/-- The `increments` argument of `upsertDailyMetrics`: a partial object;
an absent field (`none`) defaults to `0` in the destructuring
`const { ordersCreated = 0, ... } = increments`. -/
structure DailyInc where
  ordersCreated : Option Nat
  ordersConfirmed : Option Nat
  ordersCancelled : Option Nat
  ordersShipped : Option Nat
  revenueConfirmed : Option ℚ
  revenueCancelled : Option ℚ
  paymentSuccessCount : Option Nat
  paymentFailureCount : Option Nat
deriving DecidableEq

/-- A row of `hourly_order_counts`. -/
structure HourlyRow where
  orderCount : Nat
  revenue : ℚ
deriving DecidableEq

/-- A row of `product_metrics`. -/
structure ProductRow where
  totalQuantitySold : Int
  totalRevenue : ℚ
  orderCount : Nat
  lastOrderedAt : Int
deriving DecidableEq

/-- The three tables of the Aggregate Store, each keyed by its unique key
(`date`, `hour_bucket`, `product_id`). -/
structure AggState where
  daily : String → Option DailyRow
  hourly : Int → Option HourlyRow
  product : Int → Option ProductRow

/-- Full persisted state: the Event Ledger plus the Aggregate Store. -/
structure State where
  ledger : List EventRecord
  agg : AggState

/-- The values `processEvent` derives from `new Date()` at entry:
`today = now.toISOString().split('T')[0]`, the hour-truncated bucket, and
the instant stored into `last_ordered_at`. -/
structure Clock where
  today : String
  hourBucket : Int
  instant : Int
deriving DecidableEq

/-- `true` iff `events_log` already holds a row with this
`(event_type, order_id)` pair — the `ON CONFLICT (event_type, order_id)`
dedup key. -/
def ledgerHasKey (l : List EventRecord) (ty : String) (oid : Int) : Bool :=
  l.any fun r => r.eventType == ty && r.orderId == oid

/-- `insertEvent` (repository): conditional insert into `events_log` with
`ON CONFLICT (event_type, order_id) DO NOTHING RETURNING id`; returns the
new ledger on success and `none` on a duplicate (the JS function returns
the fresh row id or `null`; only the null-check is used by the caller, so
the id value is elided and the updated table returned instead).
SQL rows are unordered, so list position carries no meaning. -/
def insertEvent (eventType : String) (orderId : Int) (userId : Option Int)
    (correlationId : Option String) (data : Option EventData)
    (l : List EventRecord) : Option (List EventRecord) :=
  if ledgerHasKey l eventType orderId then none
  else some (⟨eventType, orderId, userId, correlationId, data⟩ :: l)

/-- `upsertDailyMetrics` (repository):
`INSERT ... VALUES (date, incs...) ON CONFLICT (date) DO UPDATE SET
 each = daily_metrics.each + EXCLUDED.each`, with the destructuring
defaults `= 0` applied to absent increment fields. -/
def upsertDailyMetrics (date : String) (inc : DailyInc)
    (t : String → Option DailyRow) : String → Option DailyRow :=
  let oc := inc.ordersCreated.getD 0
  let ofi := inc.ordersConfirmed.getD 0
  let oca := inc.ordersCancelled.getD 0
  let osh := inc.ordersShipped.getD 0
  let rc := inc.revenueConfirmed.getD 0
  let rca := inc.revenueCancelled.getD 0
  let ps := inc.paymentSuccessCount.getD 0
  let pf := inc.paymentFailureCount.getD 0
  fun d =>
    if d = date then
      match t date with
      | none => some ⟨oc, ofi, oca, osh, rc, rca, ps, pf⟩
      | some r =>
          some ⟨r.ordersCreated + oc, r.ordersConfirmed + ofi,
                r.ordersCancelled + oca, r.ordersShipped + osh,
                r.revenueConfirmed + rc, r.revenueCancelled + rca,
                r.paymentSuccessCount + ps, r.paymentFailureCount + pf⟩
    else t d

/-- `upsertHourlyMetrics` (repository):
`INSERT ... VALUES (bucket, orderCountIncrement, revenueIncrement)
 ON CONFLICT (hour_bucket) DO UPDATE SET` additive merge. -/
def upsertHourlyMetrics (hourBucket : Int) (orderCountIncrement : Nat)
    (revenueIncrement : ℚ) (t : Int → Option HourlyRow) :
    Int → Option HourlyRow :=
  fun b =>
    if b = hourBucket then
      match t hourBucket with
      | none => some ⟨orderCountIncrement, revenueIncrement⟩
      | some r =>
          some ⟨r.orderCount + orderCountIncrement,
                r.revenue + revenueIncrement⟩
    else t b

/-- `upsertProductMetrics` (repository):
`INSERT ... VALUES (productId, quantitySold, revenue, 1, now)
 ON CONFLICT (product_id) DO UPDATE SET` additive merge on the numeric
fields, `order_count + 1`, and `last_ordered_at = EXCLUDED.last_ordered_at`
(overwrite). -/
def upsertProductMetrics (productId : Int) (quantitySold : Int)
    (revenue : ℚ) (now : Int) (t : Int → Option ProductRow) :
    Int → Option ProductRow :=
  fun p =>
    if p = productId then
      match t productId with
      | none => some ⟨quantitySold, revenue, 1, now⟩
      | some r =>
          some ⟨r.totalQuantitySold + quantitySold, r.totalRevenue + revenue,
                r.orderCount + 1, now⟩
    else t p

/-- The per-item revenue computed in the `order.confirmed` branch:
`const itemRevenue = (item.price || 0) * (item.quantity || 0)`. -/
def itemRevenue (it : Item) : ℚ :=
  (it.price.getD 0) * ((it.quantity.getD 0 : Int) : ℚ)

/-- One iteration of the `for (const item of data.items)` loop:
`upsertProductMetrics(item.productId, item.quantity || 0, itemRevenue, now)`. -/
def productStep (now : Int) (t : Int → Option ProductRow) (it : Item) :
    Int → Option ProductRow :=
  upsertProductMetrics it.productId (it.quantity.getD 0) (itemRevenue it) now t

/-- An all-absent increments object `{}` (every field defaults to 0). -/
def noInc : DailyInc := ⟨none, none, none, none, none, none, none, none⟩

/-- Step 2 of `processEvent`: the `switch (type)` dispatch, sequencing the
repository upserts exactly as the source does per case; the `default`
branch only logs a warning and touches no table. -/
def applyAggregates (ty : String) (data : Option EventData) (clk : Clock)
    (a : AggState) : AggState :=
  if ty = ORDER_CREATED then
    let a1 := { a with
      daily := upsertDailyMetrics clk.today
        { noInc with ordersCreated := some 1 } a.daily }
    { a1 with hourly := upsertHourlyMetrics clk.hourBucket 1 0 a1.hourly }
  else if ty = ORDER_CONFIRMED then
    let totalAmount := (data.bind EventData.totalAmount).getD 0
    let a1 := { a with
      daily := upsertDailyMetrics clk.today
        { noInc with ordersConfirmed := some 1,
                     revenueConfirmed := some totalAmount } a.daily }
    let a2 := { a1 with
      hourly := upsertHourlyMetrics clk.hourBucket 0 totalAmount a1.hourly }
    let items := (data.bind EventData.items).getD []
    { a2 with product := items.foldl (productStep clk.instant) a2.product }
  else if ty = ORDER_CANCELLED then
    let cancelledAmount := (data.bind EventData.totalAmount).getD 0
    { a with
      daily := upsertDailyMetrics clk.today
        { noInc with ordersCancelled := some 1,
                     revenueCancelled := some cancelledAmount } a.daily }
  else if ty = ORDER_SHIPPED then
    { a with
      daily := upsertDailyMetrics clk.today
        { noInc with ordersShipped := some 1 } a.daily }
  else if ty = PAYMENT_AUTHORIZED then
    { a with
      daily := upsertDailyMetrics clk.today
        { noInc with paymentSuccessCount := some 1 } a.daily }
  else if ty = PAYMENT_FAILED then
    { a with
      daily := upsertDailyMetrics clk.today
        { noInc with paymentFailureCount := some 1 } a.daily }
  else
    a

/-- `processEvent(event, correlationId)` from `src/src/processor.js`:
ledger insert first (the idempotency gate), early `false` on duplicate,
then the per-type aggregate updates, returning `true`. -/
def processEvent (event : Event) (correlationId : Option String)
    (clk : Clock) (s : State) : Bool × State :=
  match insertEvent event.type event.orderId event.userId correlationId
      event.data s.ledger with
  | none => (false, s)
  | some l => (true, ⟨l, applyAggregates event.type event.data clk s.agg⟩)

/-- Fault-injection model of `processEvent` for the atomicity property.
In `src/src/processor.js` every repository call is an independent,
autocommitted `pool.query` — there is no `BEGIN`/`COMMIT`/`ROLLBACK`
around the ledger insert and the aggregate upserts.  This variant makes
the first aggregate-store query after the ledger insert throw (the spec's
"simulated storage failure ... after the ledger insert but before all
aggregate updates complete"): the error propagates out of `processEvent`
(`Except.error`), and the state it carries is what remains durably stored
— the already-committed ledger insert persists, the aggregate write that
threw does not.  An unrecognized type performs no aggregate query, so no
fault fires and processing completes. -/
def processEventFirstAggFails (event : Event) (correlationId : Option String)
    (clk : Clock) (s : State) : Except State (Bool × State) :=
  match insertEvent event.type event.orderId event.userId correlationId
      event.data s.ledger with
  | none => .ok (false, s)
  | some l =>
      if event.type ∈ recognizedTypes then .error ⟨l, s.agg⟩
      else .ok (true, ⟨l, s.agg⟩)

/-- JavaScript truthiness of an optional string (`undefined` and `''` are
falsy). -/
def jsStrTruthy : Option String → Bool
  | none => false
  | some s => !(s == "")

/-- JavaScript `a || b` on optional strings. -/
def jsOrStr (a b : Option String) : Option String :=
  if jsStrTruthy a then a else b

/-- The `correlationId` extraction at the top of the consumer's
`eachMessage` handler:
`headerValue = headers['x-correlation-id'] || headers.correlationId`,
then `if (headerValue) correlationId = headerValue` (else it stays
`null`). -/
def headerCorrelationId (headers : List (String × String)) : Option String :=
  let headerValue :=
    jsOrStr (headers.lookup "x-correlation-id") (headers.lookup "correlationId")
  if jsStrTruthy headerValue then headerValue else none

/-- A raw Kafka message as seen by `eachMessage`.  JSON parsing and
`validateEvent` are external collaborators, so the payload is modelled
post-hoc: `value = some ev` is a non-empty message that parses and
validates to `ev` (whose `correlationId` field is the in-payload value, if
any); `value = none` covers the empty / unparseable / invalid cases, all
of which return before the handler is called. -/
structure KafkaMessage where
  headers : List (String × String)
  value : Option Event
deriving DecidableEq

/-- The body of `eachMessage` in `startConsumer`: extract the header
correlation id, skip bad messages, inject a present header value into the
event (`event.correlationId = correlationId`), and return the
`(event, correlationId)` pair passed to `messageHandler` (which `index.js`
wires to `processEvent`); `none` means the handler was not invoked. -/
def eachMessage (m : KafkaMessage) : Option (Event × Option String) :=
  let correlationId := headerCorrelationId m.headers
  match m.value with
  | none => none
  | some ev =>
      let ev' :=
        match correlationId with
        | some c => { ev with correlationId := some c }
        | none => ev
      some (ev', correlationId)

/-! ### Concrete sample data for witnesses and counterexamples -/

/-- The empty Aggregate Store. -/
def emptyAgg : AggState := ⟨fun _ => none, fun _ => none, fun _ => none⟩

/-- The empty persisted state. -/
def emptyState : State := ⟨[], emptyAgg⟩

/-- A sample processing clock. -/
def clkA : Clock := ⟨"2026-02-17", 491, 17713248⟩

/-- A second, later sample clock. -/
def clkB : Clock := ⟨"2026-02-17", 492, 17713249⟩

/-! ### Basic lemmas about the ledger gate -/

theorem ledgerHasKey_cons (r : EventRecord) (l : List EventRecord)
    (ty : String) (oid : Int) :
    ledgerHasKey (r :: l) ty oid =
      ((r.eventType == ty && r.orderId == oid) || ledgerHasKey l ty oid) := by
  simp [ledgerHasKey]

theorem processEvent_not_dup (e : Event) (cid : Option String) (clk : Clock)
    (s : State) (h : ledgerHasKey s.ledger e.type e.orderId = false) :
    processEvent e cid clk s =
      (true, ⟨⟨e.type, e.orderId, e.userId, cid, e.data⟩ :: s.ledger,
              applyAggregates e.type e.data clk s.agg⟩) := by
  simp [processEvent, insertEvent, h]

theorem processEvent_dup (e : Event) (cid : Option String) (clk : Clock)
    (s : State) (h : ledgerHasKey s.ledger e.type e.orderId = true) :
    processEvent e cid clk s = (false, s) := by
  simp [processEvent, insertEvent, h]

/-- C2: for every event `e`, from any state in which `e` is not yet
ledgered, calling `processEvent(e)` twice returns `applied=true` then
`applied=false`, and the stored state after the two calls equals the state
after the first call alone (so on the duplicate call no aggregate table is
written).  The two calls may use different correlation ids and different
processing clocks. -/
theorem c2_processEvent_idempotent (e : Event) (cid1 cid2 : Option String)
    (clk1 clk2 : Clock) (s : State)
    (h : ledgerHasKey s.ledger e.type e.orderId = false) :
    (processEvent e cid1 clk1 s).1 = true ∧
    (processEvent e cid2 clk2 (processEvent e cid1 clk1 s).2).1 = false ∧
    (processEvent e cid2 clk2 (processEvent e cid1 clk1 s).2).2 =
      (processEvent e cid1 clk1 s).2 := by
  have h1 := processEvent_not_dup e cid1 clk1 s h
  have hdup : ledgerHasKey (processEvent e cid1 clk1 s).2.ledger
      e.type e.orderId = true := by
    rw [h1]
    simp [ledgerHasKey_cons]
  have h2 := processEvent_dup e cid2 clk2 (processEvent e cid1 clk1 s).2 hdup
  rw [h1]
  rw [h1] at h2
  rw [h2]
  simp [h1]

/-- Sample event for the idempotency witness (the spec's replay scenario:
`{type: order.created, orderId: 1}`). -/
def eC2 : Event := ⟨ORDER_CREATED, 1, some 10, none, none⟩

/-- Witness for C2 at a concrete input. -/
theorem c2_processEvent_idempotent_witness :
    ledgerHasKey emptyState.ledger eC2.type eC2.orderId = false ∧
    ((processEvent eC2 none clkA emptyState).1 = true ∧
     (processEvent eC2 none clkB
        (processEvent eC2 none clkA emptyState).2).1 = false ∧
     (processEvent eC2 none clkB
        (processEvent eC2 none clkA emptyState).2).2 =
       (processEvent eC2 none clkA emptyState).2) :=
  ⟨by decide,
   c2_processEvent_idempotent eC2 none none clkA clkB emptyState (by decide)⟩

theorem applyAggregates_unrecognized (ty : String) (d : Option EventData)
    (clk : Clock) (a : AggState) (h : ty ∉ recognizedTypes) :
    applyAggregates ty d clk a = a := by
  simp only [recognizedTypes, List.mem_cons, List.not_mem_nil, or_false] at h
  push_neg at h
  obtain ⟨h1, h2, h3, h4, h5, h6⟩ := h
  simp [applyAggregates, h1, h2, h3, h4, h5, h6]

/-- C9: a non-duplicate event whose type is not one of the six recognized
types is still ledgered — the ledger row count increases by exactly one —
while the Aggregate Store (all three tables) is left completely
unchanged. -/
theorem c9_unrecognized_ledgered_not_aggregated (e : Event)
    (cid : Option String) (clk : Clock) (s : State)
    (hk : ledgerHasKey s.ledger e.type e.orderId = false)
    (ht : e.type ∉ recognizedTypes) :
    (processEvent e cid clk s).2.ledger.length = s.ledger.length + 1 ∧
    (processEvent e cid clk s).2.agg = s.agg := by
  rw [processEvent_not_dup e cid clk s hk]
  exact ⟨by simp, applyAggregates_unrecognized _ _ _ _ ht⟩

/-- The spec's unrecognized-type scenario event (`promo.applied`). -/
def ePromo : Event := ⟨"promo.applied", 41, some 10, none, some ⟨some 5, none⟩⟩

/-- Witness for C9 at the `promo.applied` scenario. -/
theorem c9_unrecognized_witness :
    ledgerHasKey emptyState.ledger ePromo.type ePromo.orderId = false ∧
    ePromo.type ∉ recognizedTypes ∧
    ((processEvent ePromo none clkA emptyState).2.ledger.length =
       emptyState.ledger.length + 1 ∧
     (processEvent ePromo none clkA emptyState).2.agg = emptyState.agg) :=
  ⟨by decide, by decide,
   c9_unrecognized_ledgered_not_aggregated ePromo none clkA emptyState
     (by decide) (by decide)⟩

/-- C10: `processEvent` returns `applied=false` exactly on duplicates, and
returns `applied=true` for a non-duplicate event even when its type is
unrecognized (in which case no aggregate table changed) — so `false` never
means "merely unaggregated", and `true` does not imply any aggregate
write. -/
theorem c10_applied_false_iff_duplicate (e : Event) (cid : Option String)
    (clk : Clock) (s : State) :
    ((processEvent e cid clk s).1 = false ↔
       ledgerHasKey s.ledger e.type e.orderId = true) ∧
    (ledgerHasKey s.ledger e.type e.orderId = false →
       e.type ∉ recognizedTypes → (processEvent e cid clk s).1 = true) := by
  cases hcase : ledgerHasKey s.ledger e.type e.orderId with
  | false => rw [processEvent_not_dup e cid clk s hcase]; simp
  | true => rw [processEvent_dup e cid clk s hcase]; simp

/-- A second unrecognized-type sample event. -/
def eLoyalty : Event := ⟨"loyalty.points", 55, none, some "cid-55", none⟩

/-- Witness for C10 at a concrete input. -/
theorem c10_applied_false_iff_duplicate_witness :
    ledgerHasKey emptyState.ledger eLoyalty.type eLoyalty.orderId = false ∧
    eLoyalty.type ∉ recognizedTypes ∧
    (processEvent eLoyalty (some "cid-55") clkA emptyState).1 = true :=
  ⟨by decide, by decide,
   (c10_applied_false_iff_duplicate eLoyalty (some "cid-55") clkA
       emptyState).2 (by decide) (by decide)⟩

/-- Concrete `order.confirmed` event used for the atomicity analysis. -/
def eC1 : Event :=
  ⟨ORDER_CONFIRMED, 7, some 10, none,
   some ⟨some (7498/100), some [⟨1, some 2, some (2999/100)⟩]⟩⟩

/-- C1 (code bug evidence): `src/src/processor.js` wraps nothing in a
transaction — each repository call is an independent autocommitted query —
so when the first aggregate-store write fails after the ledger insert, the
ledger insert is NOT rolled back: the error propagates with the event
already ledgered and no aggregate updated (a ledgered-but-unaggregated
state), and re-processing the same event later hits the idempotency gate
and returns `applied=false`, not `applied=true` as the spec requires. -/
theorem c1_ledger_insert_survives_failed_aggregate_write :
    ∃ s1 : State,
      processEventFirstAggFails eC1 (some "c1") clkA emptyState =
        .error s1 ∧
      s1.ledger.length = 1 ∧
      s1.agg = emptyState.agg ∧
      (processEvent eC1 (some "c1") clkB s1).1 = false ∧
      (processEvent eC1 (some "c1") clkB s1).2 = s1 :=
  ⟨_, rfl, rfl, rfl, rfl, rfl⟩

/-- C5: each of the three aggregate upserts creates, when no row exists
for the key, a row whose fields are exactly the given increments (absent
daily fields defaulting to zero; the product row's `order_count` starts at
its fixed increment 1), and otherwise adds each increment to the existing
field — except the product row's `lastOrderedAt`, which is overwritten in
both cases.  Rows under other keys are untouched. -/
theorem c5_upsert_create_or_add (d d' : String) (inc : DailyInc)
    (dt : String → Option DailyRow) (b b' : Int) (oc : Nat) (rv : ℚ)
    (ht : Int → Option HourlyRow) (p p' : Int) (q : Int) (r : ℚ) (n : Int)
    (pt : Int → Option ProductRow) :
    (dt d = none → upsertDailyMetrics d inc dt d =
      some ⟨inc.ordersCreated.getD 0, inc.ordersConfirmed.getD 0,
            inc.ordersCancelled.getD 0, inc.ordersShipped.getD 0,
            inc.revenueConfirmed.getD 0, inc.revenueCancelled.getD 0,
            inc.paymentSuccessCount.getD 0, inc.paymentFailureCount.getD 0⟩) ∧
    (∀ row, dt d = some row → upsertDailyMetrics d inc dt d =
      some ⟨row.ordersCreated + inc.ordersCreated.getD 0,
            row.ordersConfirmed + inc.ordersConfirmed.getD 0,
            row.ordersCancelled + inc.ordersCancelled.getD 0,
            row.ordersShipped + inc.ordersShipped.getD 0,
            row.revenueConfirmed + inc.revenueConfirmed.getD 0,
            row.revenueCancelled + inc.revenueCancelled.getD 0,
            row.paymentSuccessCount + inc.paymentSuccessCount.getD 0,
            row.paymentFailureCount + inc.paymentFailureCount.getD 0⟩) ∧
    (d' ≠ d → upsertDailyMetrics d inc dt d' = dt d') ∧
    (ht b = none → upsertHourlyMetrics b oc rv ht b = some ⟨oc, rv⟩) ∧
    (∀ row, ht b = some row → upsertHourlyMetrics b oc rv ht b =
      some ⟨row.orderCount + oc, row.revenue + rv⟩) ∧
    (b' ≠ b → upsertHourlyMetrics b oc rv ht b' = ht b') ∧
    (pt p = none → upsertProductMetrics p q r n pt p = some ⟨q, r, 1, n⟩) ∧
    (∀ row, pt p = some row → upsertProductMetrics p q r n pt p =
      some ⟨row.totalQuantitySold + q, row.totalRevenue + r,
            row.orderCount + 1, n⟩) ∧
    (p' ≠ p → upsertProductMetrics p q r n pt p' = pt p') := by
  refine ⟨?_, ?_, ?_, ?_, ?_, ?_, ?_, ?_, ?_⟩
  · intro h; simp [upsertDailyMetrics, h]
  · intro row h; simp [upsertDailyMetrics, h]
  · intro h; simp [upsertDailyMetrics, h]
  · intro h; simp [upsertHourlyMetrics, h]
  · intro row h; simp [upsertHourlyMetrics, h]
  · intro h; simp [upsertHourlyMetrics, h]
  · intro h; simp [upsertProductMetrics, h]
  · intro row h; simp [upsertProductMetrics, h]
  · intro h; simp [upsertProductMetrics, h]

/-- Sample increments object for the C5 witness: only two fields present,
the rest absent (defaulting to zero). -/
def incC5 : DailyInc :=
  { noInc with ordersConfirmed := some 1, revenueConfirmed := some (7498/100) }

/-- Sample pre-existing product row for the C5 witness. -/
def pRow0 : ProductRow := ⟨4, 120, 3, 11⟩

/-- Sample one-row product table for the C5 witness. -/
def pt1 : Int → Option ProductRow := fun p => if p = 3 then some pRow0 else none

/-- Witness for C5: create-case on an empty daily table (absent increment
fields become zero), add-and-overwrite case on an existing product row,
and an untouched neighbouring key. -/
theorem c5_upsert_create_or_add_witness :
    emptyAgg.daily "2026-02-17" = none ∧
    upsertDailyMetrics "2026-02-17" incC5 emptyAgg.daily "2026-02-17" =
      some ⟨0, 1, 0, 0, 7498/100, 0, 0, 0⟩ ∧
    pt1 3 = some pRow0 ∧
    upsertProductMetrics 3 2 10 99 pt1 3 = some ⟨4 + 2, 120 + 10, 3 + 1, 99⟩ ∧
    (7 : Int) ≠ 3 ∧
    upsertProductMetrics 3 2 10 99 pt1 7 = pt1 7 := by
  refine ⟨rfl, ?_, rfl, ?_, by decide, ?_⟩
  · exact (c5_upsert_create_or_add "2026-02-17" "x" incC5 emptyAgg.daily
      0 0 0 0 emptyAgg.hourly 0 0 0 0 0 emptyAgg.product).1 rfl
  · exact (c5_upsert_create_or_add "d" "x" incC5 emptyAgg.daily
      0 0 0 0 emptyAgg.hourly 3 7 2 10 99 pt1).2.2.2.2.2.2.2.1 pRow0 rfl
  · exact (c5_upsert_create_or_add "d" "x" incC5 emptyAgg.daily
      0 0 0 0 emptyAgg.hourly 3 7 2 10 99 pt1).2.2.2.2.2.2.2.2 (by decide)

/-! ### Componentwise evaluation of each `switch` branch -/

theorem applyAggregates_created (d : Option EventData) (clk : Clock)
    (a : AggState) :
    applyAggregates ORDER_CREATED d clk a =
      ⟨upsertDailyMetrics clk.today { noInc with ordersCreated := some 1 }
         a.daily,
       upsertHourlyMetrics clk.hourBucket 1 0 a.hourly,
       a.product⟩ := by
  unfold applyAggregates
  rw [if_pos rfl]

theorem applyAggregates_confirmed (d : Option EventData) (clk : Clock)
    (a : AggState) :
    applyAggregates ORDER_CONFIRMED d clk a =
      ⟨upsertDailyMetrics clk.today
         { noInc with
           ordersConfirmed := some 1,
           revenueConfirmed := some ((d.bind EventData.totalAmount).getD 0) }
         a.daily,
       upsertHourlyMetrics clk.hourBucket 0
         ((d.bind EventData.totalAmount).getD 0) a.hourly,
       ((d.bind EventData.items).getD []).foldl (productStep clk.instant)
         a.product⟩ := by
  unfold applyAggregates
  rw [if_neg (by decide), if_pos rfl]

theorem applyAggregates_cancelled (d : Option EventData) (clk : Clock)
    (a : AggState) :
    applyAggregates ORDER_CANCELLED d clk a =
      ⟨upsertDailyMetrics clk.today
         { noInc with
           ordersCancelled := some 1,
           revenueCancelled := some ((d.bind EventData.totalAmount).getD 0) }
         a.daily,
       a.hourly, a.product⟩ := by
  unfold applyAggregates
  rw [if_neg (by decide), if_neg (by decide), if_pos rfl]

theorem applyAggregates_shipped (d : Option EventData) (clk : Clock)
    (a : AggState) :
    applyAggregates ORDER_SHIPPED d clk a =
      ⟨upsertDailyMetrics clk.today { noInc with ordersShipped := some 1 }
         a.daily,
       a.hourly, a.product⟩ := by
  unfold applyAggregates
  rw [if_neg (by decide), if_neg (by decide), if_neg (by decide), if_pos rfl]

theorem applyAggregates_payment_authorized (d : Option EventData)
    (clk : Clock) (a : AggState) :
    applyAggregates PAYMENT_AUTHORIZED d clk a =
      ⟨upsertDailyMetrics clk.today
         { noInc with paymentSuccessCount := some 1 } a.daily,
       a.hourly, a.product⟩ := by
  unfold applyAggregates
  rw [if_neg (by decide), if_neg (by decide), if_neg (by decide),
      if_neg (by decide), if_pos rfl]

theorem applyAggregates_payment_failed (d : Option EventData) (clk : Clock)
    (a : AggState) :
    applyAggregates PAYMENT_FAILED d clk a =
      ⟨upsertDailyMetrics clk.today
         { noInc with paymentFailureCount := some 1 } a.daily,
       a.hourly, a.product⟩ := by
  unfold applyAggregates
  rw [if_neg (by decide), if_neg (by decide), if_neg (by decide),
      if_neg (by decide), if_neg (by decide), if_pos rfl]

/-- C8: a non-duplicate `order.confirmed` event whose payload carries no
`totalAmount` is still processed (`applied=true`); the daily row's
`ordersConfirmed` grows by 1 while `revenueConfirmed` grows by exactly 0 —
and, generally, a missing `price` or `quantity` on a line item makes its
revenue contribution exactly 0 instead of raising an error. -/
theorem c8_missing_amount_defaults_to_zero (e : Event) (cid : Option String)
    (clk : Clock) (s : State)
    (hk : ledgerHasKey s.ledger e.type e.orderId = false)
    (ht : e.type = ORDER_CONFIRMED)
    (ha : e.data.bind EventData.totalAmount = none) :
    (processEvent e cid clk s).1 = true ∧
    (s.agg.daily clk.today = none →
      (processEvent e cid clk s).2.agg.daily clk.today =
        some ⟨0, 1, 0, 0, 0, 0, 0, 0⟩) ∧
    (∀ row, s.agg.daily clk.today = some row →
      (processEvent e cid clk s).2.agg.daily clk.today =
        some { row with ordersConfirmed := row.ordersConfirmed + 1 }) ∧
    (∀ it : Item, it.price = none ∨ it.quantity = none →
      itemRevenue it = 0) := by
  rw [processEvent_not_dup e cid clk s hk, ht,
      applyAggregates_confirmed e.data clk s.agg, ha]
  refine ⟨rfl, ?_, ?_, ?_⟩
  · intro h; simp [upsertDailyMetrics, h, noInc]
  · intro row h; simp [upsertDailyMetrics, h, noInc]
  · intro it h
    rcases h with h | h
    · simp [itemRevenue, h]
    · simp [itemRevenue, h]

/-- C8 witness event: `order.confirmed` with no `totalAmount` and one line
item missing its `quantity`. -/
def eC8 : Event :=
  ⟨ORDER_CONFIRMED, 12, some 10, none, some ⟨none, some [⟨5, none, some 3⟩]⟩⟩

/-- Pre-existing daily row for the C8 witness. -/
def dRow8 : DailyRow := ⟨3, 5, 1, 2, 100, 7, 4, 2⟩

/-- C8 witness state: one existing daily row for `clkA.today`. -/
def sC8 : State :=
  ⟨[], ⟨fun d => if d = "2026-02-17" then some dRow8 else none,
        fun _ => none, fun _ => none⟩⟩

/-- Witness for C8 at a concrete input with an existing daily row. -/
theorem c8_missing_amount_defaults_to_zero_witness :
    ledgerHasKey sC8.ledger eC8.type eC8.orderId = false ∧
    eC8.type = ORDER_CONFIRMED ∧
    eC8.data.bind EventData.totalAmount = none ∧
    sC8.agg.daily clkA.today = some dRow8 ∧
    (processEvent eC8 none clkA sC8).1 = true ∧
    (processEvent eC8 none clkA sC8).2.agg.daily clkA.today =
      some { dRow8 with ordersConfirmed := dRow8.ordersConfirmed + 1 } := by
  have h := c8_missing_amount_defaults_to_zero eC8 none clkA sC8
    (by decide) (by decide) (by decide)
  exact ⟨by decide, by decide, by decide, rfl, h.1, h.2.2.1 dRow8 rfl⟩

/-- The row the claimed per-item update should produce: create with the
item's contributions (order count starting at 1) or add them, with
`lastOrderedAt` overwritten either way. -/
def expectedProductRow (old : Option ProductRow) (it : Item) (n : Int) :
    ProductRow :=
  match old with
  | none => ⟨it.quantity.getD 0, itemRevenue it, 1, n⟩
  | some r =>
      ⟨r.totalQuantitySold + it.quantity.getD 0,
       r.totalRevenue + itemRevenue it, r.orderCount + 1, n⟩

theorem foldl_productStep_not_mem (items : List Item) (n : Int)
    (t : Int → Option ProductRow) (pid : Int)
    (h : pid ∉ items.map Item.productId) :
    items.foldl (productStep n) t pid = t pid := by
  induction items generalizing t with
  | nil => rfl
  | cons hd tl ih =>
      simp only [List.map_cons, List.mem_cons, not_or] at h
      rw [List.foldl_cons, ih _ h.2]
      simp [productStep, upsertProductMetrics, h.1]

theorem foldl_productStep_mem (items : List Item) (n : Int)
    (t : Int → Option ProductRow) (it : Item)
    (hnd : (items.map Item.productId).Nodup) (hm : it ∈ items) :
    items.foldl (productStep n) t it.productId =
      some (expectedProductRow (t it.productId) it n) := by
  induction items generalizing t with
  | nil => cases hm
  | cons hd tl ih =>
      rw [List.map_cons, List.nodup_cons] at hnd
      rw [List.foldl_cons]
      rcases List.mem_cons.mp hm with h | h
      · subst h
        rw [foldl_productStep_not_mem tl n _ _ hnd.1]
        cases hc : t it.productId <;>
          simp [productStep, upsertProductMetrics, expectedProductRow, hc]
      · have hne : it.productId ≠ hd.productId := by
          intro hh
          exact hnd.1 (hh ▸ List.mem_map_of_mem Item.productId h)
        rw [ih _ hnd.2 h]
        have : productStep n t hd it.productId = t it.productId := by
          simp [productStep, upsertProductMetrics, hne]
        rw [this]

/-- C3: a non-duplicate `order.confirmed` event increments the daily row's
`ordersConfirmed` by 1 and `revenueConfirmed` by the event's amount,
increments the hourly row's `revenue` by the amount (its `orderCount` by
0), and — per line item, for item lists without repeated product ids —
bumps that product's row by its quantity, its price×quantity revenue and
one order, overwriting `lastOrderedAt` with the processing instant, while
products outside the item list keep their rows; an absent or empty item
list leaves the whole product table unchanged while the daily and hourly
updates still apply. -/
theorem c3_order_confirmed_effects (e : Event) (cid : Option String)
    (clk : Clock) (s : State) (dat : EventData)
    (hk : ledgerHasKey s.ledger e.type e.orderId = false)
    (ht : e.type = ORDER_CONFIRMED) (hd : e.data = some dat) :
    (s.agg.daily clk.today = none →
      (processEvent e cid clk s).2.agg.daily clk.today =
        some ⟨0, 1, 0, 0, dat.totalAmount.getD 0, 0, 0, 0⟩) ∧
    (∀ row, s.agg.daily clk.today = some row →
      (processEvent e cid clk s).2.agg.daily clk.today =
        some { row with
               ordersConfirmed := row.ordersConfirmed + 1,
               revenueConfirmed :=
                 row.revenueConfirmed + dat.totalAmount.getD 0 }) ∧
    (s.agg.hourly clk.hourBucket = none →
      (processEvent e cid clk s).2.agg.hourly clk.hourBucket =
        some ⟨0, dat.totalAmount.getD 0⟩) ∧
    (∀ row, s.agg.hourly clk.hourBucket = some row →
      (processEvent e cid clk s).2.agg.hourly clk.hourBucket =
        some { row with revenue := row.revenue + dat.totalAmount.getD 0 }) ∧
    (∀ items, dat.items = some items →
      (items.map Item.productId).Nodup →
      (∀ it ∈ items,
        (processEvent e cid clk s).2.agg.product it.productId =
          some (expectedProductRow (s.agg.product it.productId) it
                  clk.instant)) ∧
      (∀ pid, pid ∉ items.map Item.productId →
        (processEvent e cid clk s).2.agg.product pid = s.agg.product pid)) ∧
    ((dat.items = none ∨ dat.items = some []) →
      (processEvent e cid clk s).2.agg.product = s.agg.product) := by
  rw [processEvent_not_dup e cid clk s hk, ht,
      applyAggregates_confirmed e.data clk s.agg, hd]
  simp only [Option.some_bind]
  refine ⟨?_, ?_, ?_, ?_, ?_, ?_⟩
  · intro h; simp [upsertDailyMetrics, h, noInc]
  · intro row h; simp [upsertDailyMetrics, h, noInc]
  · intro h; simp [upsertHourlyMetrics, h]
  · intro row h; simp [upsertHourlyMetrics, h]
  · intro items hi hnd
    rw [hi]
    exact ⟨fun it hm => foldl_productStep_mem items clk.instant _ it hnd hm,
           fun pid hp => foldl_productStep_not_mem items clk.instant _ pid hp⟩
  · intro h
    rcases h with h | h <;> rw [h] <;> rfl

/-- First line item of the spec's `order.confirmed` scenario. -/
def itemA : Item := ⟨1, some 2, some (2999/100)⟩

/-- Second line item of the spec's `order.confirmed` scenario. -/
def itemB : Item := ⟨3, some 1, some 15⟩

/-- Payload of the spec's `order.confirmed` scenario. -/
def eC3dat : EventData := ⟨some (7498/100), some [itemA, itemB]⟩

/-- The spec's `order.confirmed` scenario event: orderId 2, amount 74.98,
items for products 1 (qty 2 at 29.99) and 3 (qty 1 at 15.00). -/
def eC3 : Event := ⟨ORDER_CONFIRMED, 2, some 10, none, some eC3dat⟩

/-- Witness for C3 at the spec scenario, with the resulting rows also
evaluated to literals: daily `ordersConfirmed = 1`,
`revenueConfirmed = 74.98`; product 1 gets quantity 2 and revenue 59.98;
product 3 gets quantity 1 and revenue 15.00. -/
theorem c3_order_confirmed_effects_witness :
    ledgerHasKey emptyState.ledger eC3.type eC3.orderId = false ∧
    eC3.type = ORDER_CONFIRMED ∧
    eC3.data = some eC3dat ∧
    emptyState.agg.daily clkA.today = none ∧
    (processEvent eC3 none clkA emptyState).2.agg.daily clkA.today =
      some ⟨0, 1, 0, 0, 7498/100, 0, 0, 0⟩ ∧
    (processEvent eC3 none clkA emptyState).2.agg.hourly clkA.hourBucket =
      some ⟨0, 7498/100⟩ ∧
    (processEvent eC3 none clkA emptyState).2.agg.product 1 =
      some ⟨2, 5998/100, 1, clkA.instant⟩ ∧
    (processEvent eC3 none clkA emptyState).2.agg.product 3 =
      some ⟨1, 15, 1, clkA.instant⟩ ∧
    (processEvent eC3 none clkA emptyState).2.agg.product 2 = none := by
  have h := c3_order_confirmed_effects eC3 none clkA emptyState eC3dat
    (by decide) rfl rfl
  have hp := h.2.2.2.2.1 [itemA, itemB] rfl (by decide)
  refine ⟨by decide, rfl, rfl, rfl, h.1 rfl, h.2.2.1 rfl, ?_, ?_, ?_⟩
  · refine (hp.1 itemA (List.mem_cons_self _ _)).trans ?_
    norm_num [expectedProductRow, itemRevenue, itemA, emptyState, emptyAgg]
  · refine (hp.1 itemB
      (List.mem_cons_of_mem _ (List.mem_cons_self _ _))).trans ?_
    norm_num [expectedProductRow, itemRevenue, itemB, emptyState, emptyAgg]
  · exact hp.2 2 (by decide)

/-! ### Commutativity infrastructure for C4 -/

/-- The daily increments an event type contributes (`none`: the branch
performs no daily upsert). -/
def dailyIncOf (ty : String) (d : Option EventData) : Option DailyInc :=
  if ty = ORDER_CREATED then some { noInc with ordersCreated := some 1 }
  else if ty = ORDER_CONFIRMED then
    some { noInc with
           ordersConfirmed := some 1,
           revenueConfirmed := some ((d.bind EventData.totalAmount).getD 0) }
  else if ty = ORDER_CANCELLED then
    some { noInc with
           ordersCancelled := some 1,
           revenueCancelled := some ((d.bind EventData.totalAmount).getD 0) }
  else if ty = ORDER_SHIPPED then some { noInc with ordersShipped := some 1 }
  else if ty = PAYMENT_AUTHORIZED then
    some { noInc with paymentSuccessCount := some 1 }
  else if ty = PAYMENT_FAILED then
    some { noInc with paymentFailureCount := some 1 }
  else none

/-- The hourly `(orderCount, revenue)` increments an event type
contributes. -/
def hourlyIncOf (ty : String) (d : Option EventData) : Option (Nat × ℚ) :=
  if ty = ORDER_CREATED then some (1, 0)
  else if ty = ORDER_CONFIRMED then
    some (0, (d.bind EventData.totalAmount).getD 0)
  else none

/-- The line items an event type iterates over. -/
def itemsOf (ty : String) (d : Option EventData) : List Item :=
  if ty = ORDER_CONFIRMED then (d.bind EventData.items).getD [] else []

/-- An event's effect on the daily table alone. -/
def dailyEffect (ty : String) (d : Option EventData) (clk : Clock)
    (t : String → Option DailyRow) : String → Option DailyRow :=
  match dailyIncOf ty d with
  | none => t
  | some i => upsertDailyMetrics clk.today i t

/-- An event's effect on the hourly table alone. -/
def hourlyEffect (ty : String) (d : Option EventData) (clk : Clock)
    (t : Int → Option HourlyRow) : Int → Option HourlyRow :=
  match hourlyIncOf ty d with
  | none => t
  | some (oc, rv) => upsertHourlyMetrics clk.hourBucket oc rv t

/-- An event's effect on the product table alone. -/
def productEffect (ty : String) (d : Option EventData) (clk : Clock)
    (t : Int → Option ProductRow) : Int → Option ProductRow :=
  (itemsOf ty d).foldl (productStep clk.instant) t

/-- `applyAggregates` acts componentwise on the three tables. -/
theorem applyAggregates_decomp (ty : String) (d : Option EventData)
    (clk : Clock) (a : AggState) :
    applyAggregates ty d clk a =
      ⟨dailyEffect ty d clk a.daily, hourlyEffect ty d clk a.hourly,
       productEffect ty d clk a.product⟩ := by
  unfold applyAggregates dailyEffect hourlyEffect productEffect dailyIncOf
    hourlyIncOf itemsOf
  by_cases h1 : ty = ORDER_CREATED
  · subst h1; rfl
  · simp only [if_neg h1]
    by_cases h2 : ty = ORDER_CONFIRMED
    · subst h2; rfl
    · simp only [if_neg h2]
      by_cases h3 : ty = ORDER_CANCELLED
      · subst h3; rfl
      · simp only [if_neg h3]
        by_cases h4 : ty = ORDER_SHIPPED
        · subst h4; rfl
        · simp only [if_neg h4]
          by_cases h5 : ty = PAYMENT_AUTHORIZED
          · subst h5; rfl
          · simp only [if_neg h5]
            by_cases h6 : ty = PAYMENT_FAILED
            · subst h6; rfl
            · simp only [if_neg h6]; rfl

theorem upsertDailyMetrics_comm (date : String) (i1 i2 : DailyInc)
    (t : String → Option DailyRow) :
    upsertDailyMetrics date i1 (upsertDailyMetrics date i2 t) =
      upsertDailyMetrics date i2 (upsertDailyMetrics date i1 t) := by
  funext d
  by_cases h : d = date
  · subst h
    cases hc : t d <;> simp [upsertDailyMetrics, hc] <;>
      refine ⟨?_, ?_, ?_, ?_, ?_, ?_, ?_, ?_⟩ <;> ring
  · simp [upsertDailyMetrics, h]

theorem upsertHourlyMetrics_comm (b : Int) (oc1 oc2 : Nat) (rv1 rv2 : ℚ)
    (t : Int → Option HourlyRow) :
    upsertHourlyMetrics b oc1 rv1 (upsertHourlyMetrics b oc2 rv2 t) =
      upsertHourlyMetrics b oc2 rv2 (upsertHourlyMetrics b oc1 rv1 t) := by
  funext x
  by_cases h : x = b
  · subst h
    cases hc : t x <;> simp [upsertHourlyMetrics, hc] <;>
      refine ⟨?_, ?_⟩ <;> ring
  · simp [upsertHourlyMetrics, h]

theorem productStep_comm (n : Int) (t : Int → Option ProductRow)
    (x y : Item) :
    productStep n (productStep n t x) y =
      productStep n (productStep n t y) x := by
  funext p
  by_cases hxy : x.productId = y.productId
  · by_cases hp : p = y.productId
    · cases hc : t y.productId <;>
        simp [productStep, upsertProductMetrics, hxy, hp, hc,
          ProductRow.mk.injEq] <;>
        (repeat' apply And.intro) <;>
        first
        | trivial
        | ring1
    · simp [productStep, upsertProductMetrics, hxy, hp]
  · have hyx : ¬ y.productId = x.productId := fun hh => hxy hh.symm
    by_cases hpx : p = x.productId
    · have hpy : ¬ p = y.productId := fun hh => hxy (by rw [← hpx, hh])
      simp [productStep, upsertProductMetrics, hpx, hpy, hxy, hyx]
    · by_cases hpy : p = y.productId
      · simp [productStep, upsertProductMetrics, hpx, hpy, hxy, hyx]
      · simp [productStep, upsertProductMetrics, hpx, hpy]

theorem foldl_productStep_swap (n : Int) (l : List Item)
    (t : Int → Option ProductRow) (x : Item) :
    l.foldl (productStep n) (productStep n t x) =
      productStep n (l.foldl (productStep n) t) x := by
  induction l generalizing t with
  | nil => rfl
  | cons hd tl ih =>
      rw [List.foldl_cons, List.foldl_cons, productStep_comm n t x hd, ih]

theorem foldl_productStep_comm (n : Int) (l1 l2 : List Item)
    (t : Int → Option ProductRow) :
    l2.foldl (productStep n) (l1.foldl (productStep n) t) =
      l1.foldl (productStep n) (l2.foldl (productStep n) t) := by
  induction l1 generalizing t with
  | nil => rfl
  | cons hd tl ih =>
      rw [List.foldl_cons, List.foldl_cons, ih (productStep n t hd),
          foldl_productStep_swap]

theorem dailyEffect_comm (ty1 ty2 : String) (d1 d2 : Option EventData)
    (clk : Clock) (t : String → Option DailyRow) :
    dailyEffect ty1 d1 clk (dailyEffect ty2 d2 clk t) =
      dailyEffect ty2 d2 clk (dailyEffect ty1 d1 clk t) := by
  unfold dailyEffect
  cases dailyIncOf ty1 d1 <;> cases dailyIncOf ty2 d2 <;>
    simp [upsertDailyMetrics_comm]

theorem hourlyEffect_comm (ty1 ty2 : String) (d1 d2 : Option EventData)
    (clk : Clock) (t : Int → Option HourlyRow) :
    hourlyEffect ty1 d1 clk (hourlyEffect ty2 d2 clk t) =
      hourlyEffect ty2 d2 clk (hourlyEffect ty1 d1 clk t) := by
  unfold hourlyEffect
  cases hourlyIncOf ty1 d1 with
  | none => cases hourlyIncOf ty2 d2 <;> rfl
  | some p1 =>
      cases hourlyIncOf ty2 d2 with
      | none => rfl
      | some p2 =>
          cases p1; cases p2
          exact upsertHourlyMetrics_comm _ _ _ _ _ _

theorem productEffect_comm (ty1 ty2 : String) (d1 d2 : Option EventData)
    (clk : Clock) (t : Int → Option ProductRow) :
    productEffect ty1 d1 clk (productEffect ty2 d2 clk t) =
      productEffect ty2 d2 clk (productEffect ty1 d1 clk t) := by
  unfold productEffect
  exact foldl_productStep_comm _ _ _ _

/-- Two aggregate applications under the same processing clock commute,
whatever the two events' types, payloads and (shared or disjoint)
aggregate keys. -/
theorem applyAggregates_comm (ty1 ty2 : String) (d1 d2 : Option EventData)
    (clk : Clock) (a : AggState) :
    applyAggregates ty1 d1 clk (applyAggregates ty2 d2 clk a) =
      applyAggregates ty2 d2 clk (applyAggregates ty1 d1 clk a) := by
  rw [applyAggregates_decomp ty2 d2 clk a,
      applyAggregates_decomp ty1 d1 clk a,
      applyAggregates_decomp ty1 d1 clk, applyAggregates_decomp ty2 d2 clk]
  simp only [AggState.mk.injEq]
  exact ⟨dailyEffect_comm ty1 ty2 d1 d2 clk a.daily,
         hourlyEffect_comm ty1 ty2 d1 d2 clk a.hourly,
         productEffect_comm ty1 ty2 d1 d2 clk a.product⟩

/-- C4: two distinct events (differing in their `(type, orderId)` dedup
key, neither already ledgered), processed at the same processing clock,
produce the same final Aggregate Store state in either processing order —
on disjoint or shared aggregate keys.  (The clock is held fixed across
the four calls: attribution of buckets and `lastOrderedAt` to the
processing instant is a separate, deliberate property of the design.) -/
theorem c4_processing_order_commutes (e1 e2 : Event)
    (cid1 cid2 : Option String) (clk : Clock) (s : State)
    (hne : ¬(e1.type = e2.type ∧ e1.orderId = e2.orderId))
    (h1 : ledgerHasKey s.ledger e1.type e1.orderId = false)
    (h2 : ledgerHasKey s.ledger e2.type e2.orderId = false) :
    (processEvent e2 cid2 clk (processEvent e1 cid1 clk s).2).2.agg =
      (processEvent e1 cid1 clk (processEvent e2 cid2 clk s).2).2.agg := by
  have hk12 : (e1.type == e2.type && e1.orderId == e2.orderId) = false := by
    by_cases hty : e1.type = e2.type
    · by_cases hoid : e1.orderId = e2.orderId
      · exact absurd ⟨hty, hoid⟩ hne
      · simp [hoid]
    · simp [hty]
  have hk21 : (e2.type == e1.type && e2.orderId == e1.orderId) = false := by
    by_cases hty : e2.type = e1.type
    · by_cases hoid : e2.orderId = e1.orderId
      · exact absurd ⟨hty.symm, hoid.symm⟩ hne
      · simp [hoid]
    · simp [hty]
  have pA := processEvent_not_dup e1 cid1 clk s h1
  have pC := processEvent_not_dup e2 cid2 clk s h2
  have kA : ledgerHasKey (processEvent e1 cid1 clk s).2.ledger
      e2.type e2.orderId = false := by
    rw [pA]; simp [ledgerHasKey_cons, h2, hk12]
  have kC : ledgerHasKey (processEvent e2 cid2 clk s).2.ledger
      e1.type e1.orderId = false := by
    rw [pC]; simp [ledgerHasKey_cons, h1, hk21]
  have pB := processEvent_not_dup e2 cid2 clk (processEvent e1 cid1 clk s).2 kA
  have pD := processEvent_not_dup e1 cid1 clk (processEvent e2 cid2 clk s).2 kC
  rw [pB, pD, pA, pC]
  exact applyAggregates_comm e2.type e1.type e2.data e1.data clk s.agg

/-- First event of the C4 witness: confirms order 101 with a line item on
product 1. -/
def eD1 : Event :=
  ⟨ORDER_CONFIRMED, 101, none, none, some ⟨some 10, some [⟨1, some 1, some 2⟩]⟩⟩

/-- Second event of the C4 witness: confirms order 102, touching the same
daily date, the same hour bucket and the same product 1 (shared keys). -/
def eD2 : Event :=
  ⟨ORDER_CONFIRMED, 102, none, none, some ⟨some 5, some [⟨1, some 3, some 4⟩]⟩⟩

/-- Witness for C4 at two concrete events with shared aggregate keys. -/
theorem c4_processing_order_commutes_witness :
    ¬(eD1.type = eD2.type ∧ eD1.orderId = eD2.orderId) ∧
    ledgerHasKey emptyState.ledger eD1.type eD1.orderId = false ∧
    ledgerHasKey emptyState.ledger eD2.type eD2.orderId = false ∧
    (processEvent eD2 none clkA (processEvent eD1 none clkA emptyState).2).2.agg =
      (processEvent eD1 none clkA
        (processEvent eD2 none clkA emptyState).2).2.agg :=
  ⟨by decide, by decide, by decide,
   c4_processing_order_commutes eD1 eD2 none none clkA emptyState
     (by decide) (by decide) (by decide)⟩

/-- The header-extraction characterization: `x-correlation-id` wins over
`correlationId`, and a missing / empty (falsy) pair of headers yields
`none`. -/
theorem headerCorrelationId_eq (hs : List (String × String)) :
    headerCorrelationId hs =
      (if jsStrTruthy (hs.lookup "x-correlation-id") then
        hs.lookup "x-correlation-id"
      else if jsStrTruthy (hs.lookup "correlationId") then
        hs.lookup "correlationId"
      else none) := by
  by_cases h1 : jsStrTruthy (hs.lookup "x-correlation-id") <;>
    by_cases h2 : jsStrTruthy (hs.lookup "correlationId") <;>
    simp [headerCorrelationId, jsOrStr, h1, h2]

/-- Case normal form of the `eachMessage` handler. -/
theorem eachMessage_eq (m : KafkaMessage) :
    eachMessage m =
      (match m.value, headerCorrelationId m.headers with
       | none, _ => none
       | some ev, some c => some ({ ev with correlationId := some c }, some c)
       | some ev, none => some (ev, none)) := by
  unfold eachMessage
  cases m.value <;> cases hh : headerCorrelationId m.headers <;> simp [hh]

/-- Payload event of the C6 counterexample: carries an in-payload
correlation id. -/
def eC6 : Event := ⟨ORDER_CREATED, 77, none, some "payload-cid", none⟩

/-- C6 counterexample message: no Kafka headers, but a payload whose event
carries `correlationId = "payload-cid"`. -/
def msgC6 : KafkaMessage := ⟨[], some eC6⟩

/-- C6 counterexample: the claim that `processEvent` is never invoked
without a correlation identifier (synthesizing one when neither a header
nor the payload provides it — and, here, even though the payload DOES
provide one) is false: on a message with no headers the consumer invokes
the handler with `none`. -/
theorem c6_counterexample :
    ¬(∀ (m : KafkaMessage) (ev : Event) (cid : Option String),
        eachMessage m = some (ev, cid) → cid.isSome = true) := by
  intro h
  have h0 : eachMessage msgC6 = some (eC6, none) := rfl
  simpa using h msgC6 eC6 none h0

/-- C6 amended: the consumer passes `processEvent` the truthy
header-provided correlation identifier when one exists (`x-correlation-id`
preferred over `correlationId`), also injecting it into the event's
payload; otherwise it passes `none` — the in-payload value is never
promoted into the argument and no identifier is synthesized. -/
theorem c6_header_value_or_null (m : KafkaMessage) (ev : Event)
    (cid : Option String) (h : eachMessage m = some (ev, cid)) :
    cid = headerCorrelationId m.headers ∧
    cid =
      (if jsStrTruthy (m.headers.lookup "x-correlation-id") then
        m.headers.lookup "x-correlation-id"
      else if jsStrTruthy (m.headers.lookup "correlationId") then
        m.headers.lookup "correlationId"
      else none) ∧
    (∀ c, cid = some c → ev.correlationId = some c) ∧
    (cid = none → ∀ e0, m.value = some e0 → ev = e0) := by
  cases hv : m.value with
  | none => rw [eachMessage_eq, hv] at h; cases h
  | some e0 =>
      cases hh : headerCorrelationId m.headers with
      | none =>
          rw [eachMessage_eq, hv, hh] at h
          injection h with h1
          injection h1 with ha hb
          refine ⟨?_, ?_, ?_, ?_⟩
          · exact hb.symm
          · rw [← headerCorrelationId_eq, hh]; exact hb.symm
          · intro c hc; rw [← hb] at hc; simp at hc
          · intro _ e1 he1
            injection he1 with he
            rw [← ha, he]
      | some c0 =>
          rw [eachMessage_eq, hv, hh] at h
          injection h with h1
          injection h1 with ha hb
          refine ⟨?_, ?_, ?_, ?_⟩
          · exact hb.symm
          · rw [← headerCorrelationId_eq, hh]; exact hb.symm
          · intro c hc
            rw [← hb] at hc
            injection hc with hcc
            rw [← ha, ← hcc]
          · intro hn; rw [← hb] at hn; simp at hn

/-- Payload event of the C6 amended-claim witness. -/
def eC6b : Event := ⟨ORDER_CREATED, 78, none, some "payload-cid", none⟩

/-- C6 witness message: both correlation headers present plus an
in-payload value; the `x-correlation-id` header must win. -/
def msgC6b : KafkaMessage :=
  ⟨[("x-correlation-id", "hdr-1"), ("correlationId", "hdr-2")], some eC6b⟩

/-- Witness for the amended C6 at a concrete message: the handler receives
the `x-correlation-id` header value, which is also injected into the
event. -/
theorem c6_header_value_or_null_witness :
    eachMessage msgC6b =
      some ({ eC6b with correlationId := some "hdr-1" }, some "hdr-1") ∧
    some "hdr-1" = headerCorrelationId msgC6b.headers ∧
    (∀ c, (some "hdr-1" : Option String) = some c →
      ({ eC6b with correlationId := some "hdr-1" } : Event).correlationId =
        some c) := by
  have h0 : eachMessage msgC6b =
      some ({ eC6b with correlationId := some "hdr-1" }, some "hdr-1") := rfl
  have h := c6_header_value_or_null msgC6b
    { eC6b with correlationId := some "hdr-1" } (some "hdr-1") h0
  exact ⟨h0, h.1, h.2.2.1⟩

end Analytics
